import Mathlib

/-!
# wb-orders-service: ingestion, persistence and cache synchronisation

A shallow embedding of

* `internal/cache/cache.go`      (`OrderCache`: `NewOrderCache`, `Set`, `Get`, `LoadFromDB`, `GetAll`),
* `internal/database/postgres.go` (`SaveOrder`, `GetAllOrders`),
* `internal/nats/subscriber.go`  (the message handler passed to `Subscribe`),
* `cmd/service/main.go`          (the cache restore at start-up),

followed by the properties proved about them.

Modelling conventions.

* Go strings are `String`, Go integers are `Int`, a Go slice is a `List`.
* The relational engine is outside the repository.  A table is the list of its rows in
  insertion order, a `SELECT` without `ORDER BY` returns the matching rows in that order,
  and a column holds `none` for SQL `NULL`.  `Rows.Scan` assigns its destinations from left
  to right and stops at the first `NULL` it cannot convert.
* The store keeps every value as it was written; conversions done by column types
  (time zones, numeric widths) are not modelled.
* A transaction works on a private copy of the store; `Commit` publishes the copy and every
  other exit (the deferred `Rollback`) discards it.  A `Commit` that returns an error has
  published nothing.
* The table declarations are not among the sources.  What `SaveOrder` can observe of them
  is the parameter `Schema`.
* The handler runs are sequential, as are the calls into the cache, whose mutex makes each
  operation atomic.
* Errors raised by the driver for reasons that are not visible in the store (lost
  connection, ...) are an explicit input: a `WriteEnv` for one call of `SaveOrder`, a
  `ReadEnv` for one call of `GetAllOrders`.  A `ReadEnv` covers the queries and the fetch of
  each row: when a fetch fails, `rows.Next()` returns `false` and the loop ends; the error
  stays in `rows.Err()`, which `GetAllOrders` never reads.
* `log.Printf` has no effect on the state and is left out.
-/

namespace WbOrders

/-! ## `models` : the order aggregate

Package `models` is not among the sources.  The field names are those that `postgres.go`
reads and writes; textual attributes are strings and numeric attributes are integers. -/

/-- Modelled from the spec: `models.Delivery`, whose declaration is missing (name, phone,
postal code, city, address, region, email). -/
structure Delivery where
  Name : String
  Phone : String
  Zip : String
  City : String
  Address : String
  Region : String
  Email : String
  deriving DecidableEq, Repr

/-- Modelled from the spec: `models.Payment`, whose declaration is missing (transaction
id, request id, currency, provider, amount, payment timestamp, bank, delivery cost, goods
total, custom fee). -/
structure Payment where
  Transaction : String
  RequestID : String
  Currency : String
  Provider : String
  Amount : Int
  PaymentDt : Int
  Bank : String
  DeliveryCost : Int
  GoodsTotal : Int
  CustomFee : Int
  deriving DecidableEq, Repr

/-- Modelled from the spec: `models.Item`, whose declaration is missing (chrt id, track
number, price, rid, name, sale percentage, size, total price, nm id, brand, status code). -/
structure Item where
  ChrtID : Int
  TrackNumber : String
  Price : Int
  Rid : String
  Name : String
  Sale : Int
  Size : String
  TotalPrice : Int
  NmID : Int
  Brand : String
  Status : Int
  deriving DecidableEq, Repr

/-- Modelled from the spec: `models.Order`, whose declaration is missing: the root
attributes, one `Delivery`, one `Payment` and the sequence of `Item`s. -/
structure Order where
  OrderUID : String
  TrackNumber : String
  Entry : String
  Delivery : Delivery
  Payment : Payment
  Items : List Item
  Locale : String
  InternalSignature : String
  CustomerID : String
  DeliveryService : String
  Shardkey : String
  SmID : Int
  DateCreated : String
  OofShard : String
  deriving DecidableEq, Repr

/-- Go zero value of `models.Delivery`. -/
def Delivery.zero : Delivery := ⟨"", "", "", "", "", "", ""⟩

/-- Go zero value of `models.Payment`. -/
def Payment.zero : Payment := ⟨"", "", "", "", 0, 0, "", 0, 0, 0⟩

/-- Go zero value of `models.Item`. -/
def Item.zero : Item := ⟨0, "", 0, "", "", 0, "", 0, 0, "", 0⟩

/-- Go zero value of `models.Order` (`var order models.Order`). -/
def Order.zero : Order :=
  ⟨"", "", "", Delivery.zero, Payment.zero, [], "", "", "", "", "", 0, "", ""⟩

/-! ## `cache.go` -/

/-- The `orders map[string]models.Order` of the cache, as a list of bindings with at most
one binding per key.  The mutex only serialises the operations and is not modelled. -/
structure OrderCache where
  orders : List (String × Order)
  deriving DecidableEq, Repr

/-- Go map assignment `m[k] = v`: replace the binding of `k`, or add one. -/
def mapAssign : List (String × Order) → String → Order → List (String × Order)
  | [], k, v => [(k, v)]
  | (k', v') :: rest, k, v =>
    if k' = k then (k, v) :: rest else (k', v') :: mapAssign rest k v

/-- Go map read `v, ok := m[k]`. -/
def mapIndex : List (String × Order) → String → Order × Bool
  | [], _ => (Order.zero, false)
  | (k', v') :: rest, k => if k' = k then (v', true) else mapIndex rest k

/-- `NewOrderCache`. -/
def NewOrderCache : OrderCache := ⟨[]⟩

/-- `(*OrderCache).Set`. -/
def OrderCache.Set (c : OrderCache) (orderUID : String) (order : Order) : OrderCache :=
  ⟨mapAssign c.orders orderUID order⟩

/-- `(*OrderCache).Get`. -/
def OrderCache.Get (c : OrderCache) (orderUID : String) : Order × Bool :=
  mapIndex c.orders orderUID

/-- `(*OrderCache).LoadFromDB`: `for _, order := range orders { c.orders[order.OrderUID] = order }`. -/
def OrderCache.LoadFromDB (c : OrderCache) : List Order → OrderCache
  | [] => c
  | order :: rest => OrderCache.LoadFromDB ⟨mapAssign c.orders order.OrderUID order⟩ rest

/-- `(*OrderCache).GetAll`: the values of the map (Go leaves the iteration order open). -/
def OrderCache.GetAll (c : OrderCache) : List Order :=
  c.orders.map Prod.snd

/-- A sequence of `Set(id, order)` calls, applied from left to right. -/
def applySets (c : OrderCache) : List (String × Order) → OrderCache
  | [] => c
  | (k, v) :: rest => applySets (c.Set k v) rest

/-! ## The relational store behind `postgres.go` -/

/-- A row of table `orders`, columns in the order of the `SELECT` of `GetAllOrders`. -/
structure OrderRow where
  order_uid : Option String
  track_number : Option String
  entry : Option String
  locale : Option String
  internal_signature : Option String
  customer_id : Option String
  delivery_service : Option String
  shardkey : Option String
  sm_id : Option Int
  date_created : Option String
  oof_shard : Option String
  deriving DecidableEq, Repr

/-- A row of table `deliveries`. -/
structure DeliveryRow where
  order_uid : Option String
  name : Option String
  phone : Option String
  zip : Option String
  city : Option String
  address : Option String
  region : Option String
  email : Option String
  deriving DecidableEq, Repr

/-- A row of table `payments`. -/
structure PaymentRow where
  order_uid : Option String
  transaction : Option String
  request_id : Option String
  currency : Option String
  provider : Option String
  amount : Option Int
  payment_dt : Option Int
  bank : Option String
  delivery_cost : Option Int
  goods_total : Option Int
  custom_fee : Option Int
  deriving DecidableEq, Repr

/-- A row of table `items`. -/
structure ItemRow where
  order_uid : Option String
  chrt_id : Option Int
  track_number : Option String
  price : Option Int
  rid : Option String
  name : Option String
  sale : Option Int
  size : Option String
  total_price : Option Int
  nm_id : Option Int
  brand : Option String
  status : Option Int
  deriving DecidableEq, Repr

/-- The committed content of the four tables. -/
structure Store where
  orders : List OrderRow
  deliveries : List DeliveryRow
  payments : List PaymentRow
  items : List ItemRow
  deriving DecidableEq, Repr

/-- The store with four empty tables. -/
def Store.empty : Store := ⟨[], [], [], []⟩

/-- The part of the table declarations that `SaveOrder` can observe.  The declarations are
not among the sources, so they are a parameter.  `ON CONFLICT (order_uid)` on `orders`
needs a unique index on `orders.order_uid`, which is therefore always assumed; for
`deliveries` and `payments` a field holds the name of the unique constraint on
`order_uid`, or `none` when the table has none.  Table `items` holds several rows per
order and has no such constraint. -/
structure Schema where
  deliveries_order_uid_key : Option String
  payments_order_uid_key : Option String
  deriving DecidableEq, Repr

/-- The calls of `SaveOrder` into the driver, in program order. -/
inductive Stage where
  | begin
  | insertOrder
  | insertDelivery
  | insertPayment
  | insertItem (i : Nat)
  | commit
  deriving DecidableEq, Repr

/-- The driver errors met by one call of `SaveOrder` that do not come from a key
constraint: `env st = some e` makes the call `st` fail with error text `e`. -/
abbrev WriteEnv := Stage → Option String

/-- No driver error. -/
def WriteEnv.healthy : WriteEnv := fun _ => none

/-- The driver errors met by one call of `GetAllOrders`.  The `...Query` fields are the
errors of the four queries; the three sub-queries are issued once per order and are
indexed by the order identifier.  `ordersNext i = some e` makes the fetch of the root row
of index `i` fail, and `itemsNext uid i = some e` the fetch of the item row of index `i`
of order `uid`. -/
structure ReadEnv where
  ordersQuery : Option String
  ordersNext : Nat → Option String
  deliveryQuery : String → Option String
  paymentQuery : String → Option String
  itemsQuery : String → Option String
  itemsNext : String → Nat → Option String

/-- No query error and no fetch error. -/
def ReadEnv.healthy : ReadEnv :=
  { ordersQuery := none
    ordersNext := fun _ => none
    deliveryQuery := fun _ => none
    paymentQuery := fun _ => none
    itemsQuery := fun _ => none
    itemsNext := fun _ _ => none }

/-- Error text of the driver for a violated unique constraint. -/
def uniqueViolation (constraintName : String) : String :=
  "pq: duplicate key value violates unique constraint " ++ constraintName

/-- The row written by the `INSERT INTO orders` of `SaveOrder`. -/
def orderRow (order : Order) : OrderRow :=
  { order_uid := some order.OrderUID
    track_number := some order.TrackNumber
    entry := some order.Entry
    locale := some order.Locale
    internal_signature := some order.InternalSignature
    customer_id := some order.CustomerID
    delivery_service := some order.DeliveryService
    shardkey := some order.Shardkey
    sm_id := some order.SmID
    date_created := some order.DateCreated
    oof_shard := some order.OofShard }

/-- The row written by the `INSERT INTO deliveries` of `SaveOrder`. -/
def deliveryRow (order : Order) : DeliveryRow :=
  { order_uid := some order.OrderUID
    name := some order.Delivery.Name
    phone := some order.Delivery.Phone
    zip := some order.Delivery.Zip
    city := some order.Delivery.City
    address := some order.Delivery.Address
    region := some order.Delivery.Region
    email := some order.Delivery.Email }

/-- The row written by the `INSERT INTO payments` of `SaveOrder`. -/
def paymentRow (order : Order) : PaymentRow :=
  { order_uid := some order.OrderUID
    transaction := some order.Payment.Transaction
    request_id := some order.Payment.RequestID
    currency := some order.Payment.Currency
    provider := some order.Payment.Provider
    amount := some order.Payment.Amount
    payment_dt := some order.Payment.PaymentDt
    bank := some order.Payment.Bank
    delivery_cost := some order.Payment.DeliveryCost
    goods_total := some order.Payment.GoodsTotal
    custom_fee := some order.Payment.CustomFee }

/-- The row written by one `INSERT INTO items` of `SaveOrder`. -/
def itemRow (orderUID : String) (item : Item) : ItemRow :=
  { order_uid := some orderUID
    chrt_id := some item.ChrtID
    track_number := some item.TrackNumber
    price := some item.Price
    rid := some item.Rid
    name := some item.Name
    sale := some item.Sale
    size := some item.Size
    total_price := some item.TotalPrice
    nm_id := some item.NmID
    brand := some item.Brand
    status := some item.Status }

/-- Does table `orders` hold a row with this identifier? -/
def hasOrder (rows : List OrderRow) (orderUID : String) : Bool :=
  rows.any fun r => decide (r.order_uid = some orderUID)

/-- Does table `deliveries` hold a row with this identifier? -/
def hasDelivery (rows : List DeliveryRow) (orderUID : String) : Bool :=
  rows.any fun r => decide (r.order_uid = some orderUID)

/-- Does table `payments` hold a row with this identifier? -/
def hasPayment (rows : List PaymentRow) (orderUID : String) : Bool :=
  rows.any fun r => decide (r.order_uid = some orderUID)

/-- `tx.Exec("INSERT INTO orders ... ON CONFLICT (order_uid) DO NOTHING", ...)`. -/
def execInsertOrder (env : WriteEnv) (tx : Store) (order : Order) : Except String Store :=
  match env Stage.insertOrder with
  | some e => Except.error e
  | none =>
    if hasOrder tx.orders order.OrderUID then Except.ok tx
    else Except.ok { tx with orders := tx.orders ++ [orderRow order] }

/-- `tx.Exec("INSERT INTO deliveries ...", ...)`. -/
def execInsertDelivery (sch : Schema) (env : WriteEnv) (tx : Store) (order : Order) :
    Except String Store :=
  match env Stage.insertDelivery with
  | some e => Except.error e
  | none =>
    match sch.deliveries_order_uid_key with
    | some key =>
      if hasDelivery tx.deliveries order.OrderUID then Except.error (uniqueViolation key)
      else Except.ok { tx with deliveries := tx.deliveries ++ [deliveryRow order] }
    | none => Except.ok { tx with deliveries := tx.deliveries ++ [deliveryRow order] }

/-- `tx.Exec("INSERT INTO payments ...", ...)`. -/
def execInsertPayment (sch : Schema) (env : WriteEnv) (tx : Store) (order : Order) :
    Except String Store :=
  match env Stage.insertPayment with
  | some e => Except.error e
  | none =>
    match sch.payments_order_uid_key with
    | some key =>
      if hasPayment tx.payments order.OrderUID then Except.error (uniqueViolation key)
      else Except.ok { tx with payments := tx.payments ++ [paymentRow order] }
    | none => Except.ok { tx with payments := tx.payments ++ [paymentRow order] }

/-- The loop `for _, item := range order.Items { tx.Exec("INSERT INTO items ...") }`;
`i` is the index of the next item, and the first failing insert ends the loop. -/
def execInsertItems (env : WriteEnv) (orderUID : String) :
    List Item → Nat → Store → Except String Store
  | [], _, tx => Except.ok tx
  | item :: rest, i, tx =>
    match env (Stage.insertItem i) with
    | some e => Except.error e
    | none =>
      execInsertItems env orderUID rest (i + 1)
        { tx with items := tx.items ++ [itemRow orderUID item] }

/-- `fmt.Errorf(msg + ": %w", err)` as the text of the resulting error. -/
def errorf (msg : String) (err : String) : String :=
  msg ++ ": " ++ err

/-- `(*PostgresDB).SaveOrder`.  Returns the committed store after the call and the error
(`none` for `nil`).  Every `return` before `tx.Commit()` runs the deferred `tx.Rollback()`,
which leaves the committed store as it was. -/
def SaveOrder (sch : Schema) (env : WriteEnv) (db : Store) (order : Order) :
    Store × Option String :=
  match env Stage.begin with
  | some e => (db, some (errorf "error starting transaction" e))
  | none =>
    match execInsertOrder env db order with
    | Except.error e => (db, some (errorf "error inserting order" e))
    | Except.ok tx1 =>
      match execInsertDelivery sch env tx1 order with
      | Except.error e => (db, some (errorf "error inserting delivery" e))
      | Except.ok tx2 =>
        match execInsertPayment sch env tx2 order with
        | Except.error e => (db, some (errorf "error inserting payment" e))
        | Except.ok tx3 =>
          match execInsertItems env order.OrderUID order.Items 0 tx3 with
          | Except.error e => (db, some (errorf "error inserting item" e))
          | Except.ok tx4 =>
            match env Stage.commit with
            | some e => (db, some e)
            | none => (tx4, none)

/-- `rows.Scan(&order.OrderUID, ..., &order.OofShard)` into a zero `order`.  A `NULL`
column makes `Scan` fail; the loop then runs `continue`, so the half-filled order is never
seen and only the complete result is kept. -/
def scanOrder (r : OrderRow) : Option Order :=
  match r.order_uid with
  | none => none
  | some orderUID =>
  match r.track_number with
  | none => none
  | some trackNumber =>
  match r.entry with
  | none => none
  | some entry =>
  match r.locale with
  | none => none
  | some locale =>
  match r.internal_signature with
  | none => none
  | some internalSignature =>
  match r.customer_id with
  | none => none
  | some customerID =>
  match r.delivery_service with
  | none => none
  | some deliveryService =>
  match r.shardkey with
  | none => none
  | some shardkey =>
  match r.sm_id with
  | none => none
  | some smID =>
  match r.date_created with
  | none => none
  | some dateCreated =>
  match r.oof_shard with
  | none => none
  | some oofShard =>
    some { Order.zero with
      OrderUID := orderUID, TrackNumber := trackNumber, Entry := entry, Locale := locale,
      InternalSignature := internalSignature, CustomerID := customerID,
      DeliveryService := deliveryService, Shardkey := shardkey, SmID := smID,
      DateCreated := dateCreated, OofShard := oofShard }

/-- `Scan(&order.Delivery.Name, ..., &order.Delivery.Email)`: the fields are assigned from
left to right up to the first `NULL`; the error is only logged, so what was assigned stays. -/
def scanDelivery (r : DeliveryRow) (d : Delivery) : Delivery :=
  match r.name with
  | none => d
  | some v1 =>
  match r.phone with
  | none => { d with Name := v1 }
  | some v2 =>
  match r.zip with
  | none => { d with Name := v1, Phone := v2 }
  | some v3 =>
  match r.city with
  | none => { d with Name := v1, Phone := v2, Zip := v3 }
  | some v4 =>
  match r.address with
  | none => { d with Name := v1, Phone := v2, Zip := v3, City := v4 }
  | some v5 =>
  match r.region with
  | none => { d with Name := v1, Phone := v2, Zip := v3, City := v4, Address := v5 }
  | some v6 =>
  match r.email with
  | none =>
    { d with Name := v1, Phone := v2, Zip := v3, City := v4, Address := v5, Region := v6 }
  | some v7 => ⟨v1, v2, v3, v4, v5, v6, v7⟩

/-- `Scan(&order.Payment.Transaction, ..., &order.Payment.CustomFee)`, as `scanDelivery`. -/
def scanPayment (r : PaymentRow) (p : Payment) : Payment :=
  match r.transaction with
  | none => p
  | some v1 =>
  match r.request_id with
  | none => { p with Transaction := v1 }
  | some v2 =>
  match r.currency with
  | none => { p with Transaction := v1, RequestID := v2 }
  | some v3 =>
  match r.provider with
  | none => { p with Transaction := v1, RequestID := v2, Currency := v3 }
  | some v4 =>
  match r.amount with
  | none => { p with Transaction := v1, RequestID := v2, Currency := v3, Provider := v4 }
  | some v5 =>
  match r.payment_dt with
  | none =>
    { p with Transaction := v1, RequestID := v2, Currency := v3, Provider := v4, Amount := v5 }
  | some v6 =>
  match r.bank with
  | none =>
    { p with Transaction := v1, RequestID := v2, Currency := v3, Provider := v4, Amount := v5,
             PaymentDt := v6 }
  | some v7 =>
  match r.delivery_cost with
  | none =>
    { p with Transaction := v1, RequestID := v2, Currency := v3, Provider := v4, Amount := v5,
             PaymentDt := v6, Bank := v7 }
  | some v8 =>
  match r.goods_total with
  | none =>
    { p with Transaction := v1, RequestID := v2, Currency := v3, Provider := v4, Amount := v5,
             PaymentDt := v6, Bank := v7, DeliveryCost := v8 }
  | some v9 =>
  match r.custom_fee with
  | none =>
    { p with Transaction := v1, RequestID := v2, Currency := v3, Provider := v4, Amount := v5,
             PaymentDt := v6, Bank := v7, DeliveryCost := v8, GoodsTotal := v9 }
  | some v10 => ⟨v1, v2, v3, v4, v5, v6, v7, v8, v9, v10⟩

/-- `itemRows.Scan(&item.ChrtID, ..., &item.Status)` into a zero `item`; on an error the
loop runs `continue` and the item is not appended. -/
def scanItem (r : ItemRow) : Option Item :=
  match r.chrt_id with
  | none => none
  | some chrtID =>
  match r.track_number with
  | none => none
  | some trackNumber =>
  match r.price with
  | none => none
  | some price =>
  match r.rid with
  | none => none
  | some rid =>
  match r.name with
  | none => none
  | some name =>
  match r.sale with
  | none => none
  | some sale =>
  match r.size with
  | none => none
  | some size =>
  match r.total_price with
  | none => none
  | some totalPrice =>
  match r.nm_id with
  | none => none
  | some nmID =>
  match r.brand with
  | none => none
  | some brand =>
  match r.status with
  | none => none
  | some status =>
    some ⟨chrtID, trackNumber, price, rid, name, sale, size, totalPrice, nmID, brand, status⟩

/-- `QueryRow("SELECT ... FROM deliveries WHERE order_uid = $1", uid).Scan(...)`: a query
error or the absence of a row (`sql.ErrNoRows`) leaves the destination untouched;
otherwise the first matching row is scanned. -/
def loadDelivery (env : ReadEnv) (db : Store) (orderUID : String) (d : Delivery) : Delivery :=
  match env.deliveryQuery orderUID with
  | some _ => d
  | none =>
    match db.deliveries.find? (fun r => decide (r.order_uid = some orderUID)) with
    | none => d
    | some r => scanDelivery r d

/-- `QueryRow("SELECT ... FROM payments WHERE order_uid = $1", uid).Scan(...)`. -/
def loadPayment (env : ReadEnv) (db : Store) (orderUID : String) (p : Payment) : Payment :=
  match env.paymentQuery orderUID with
  | some _ => p
  | none =>
    match db.payments.find? (fun r => decide (r.order_uid = some orderUID)) with
    | none => p
    | some r => scanPayment r p

/-- The inner loop `for itemRows.Next() { ... order.Items = append(order.Items, item) }`;
`i` is the index of the next row.  `itemRows.Next()` returns `false` when the rows are
exhausted and also when the fetch of the next row fails; `itemRows.Err()` is not read, so
in both cases the loop just ends with the items appended so far. -/
def scanItems (env : ReadEnv) (orderUID : String) :
    List ItemRow → Nat → List Item → List Item
  | [], _, items => items
  | r :: rest, i, items =>
    match env.itemsNext orderUID i with
    | some _ => items
    | none =>
      match scanItem r with
      | none => scanItems env orderUID rest (i + 1) items
      | some item => scanItems env orderUID rest (i + 1) (items ++ [item])

/-- `Query("SELECT ... FROM items WHERE order_uid = $1", uid)` and the loop over its rows;
a query error is logged and leaves `order.Items` as it is. -/
def loadItems (env : ReadEnv) (db : Store) (orderUID : String) (items : List Item) :
    List Item :=
  match env.itemsQuery orderUID with
  | some _ => items
  | none =>
    scanItems env orderUID
      (db.items.filter fun r => decide (r.order_uid = some orderUID)) 0 items

/-- The body of the outer loop of `GetAllOrders` after a successful root `Scan`. -/
def loadOrder (env : ReadEnv) (db : Store) (order : Order) : Order :=
  let order := { order with
    Delivery := loadDelivery env db order.OrderUID order.Delivery }
  let order := { order with
    Payment := loadPayment env db order.OrderUID order.Payment }
  { order with Items := loadItems env db order.OrderUID order.Items }

/-- The outer loop `for rows.Next() { ... orders = append(orders, order) }`; `i` is the
index of the next root row.  `rows.Next()` returns `false` when the rows are exhausted and
also when the fetch of the next row fails; `rows.Err()` is not read, so in both cases the
loop ends and the orders appended so far are what `GetAllOrders` returns. -/
def getAllOrdersLoop (env : ReadEnv) (db : Store) :
    List OrderRow → Nat → List Order → List Order
  | [], _, orders => orders
  | r :: rest, i, orders =>
    match env.ordersNext i with
    | some _ => orders
    | none =>
      match scanOrder r with
      | none => getAllOrdersLoop env db rest (i + 1) orders
      | some order =>
        getAllOrdersLoop env db rest (i + 1) (orders ++ [loadOrder env db order])

/-- `(*PostgresDB).GetAllOrders`: returns an error only when the root query fails. -/
def GetAllOrders (env : ReadEnv) (db : Store) : Except String (List Order) :=
  match env.ordersQuery with
  | some e => Except.error e
  | none => Except.ok (getAllOrdersLoop env db db.orders 0 [])

/-! ## `subscriber.go` and `main.go` -/

/-- The two pieces of state shared by the start-up code and the message handler. -/
structure Service where
  db : Store
  cache : OrderCache
  deriving DecidableEq, Repr

/-- The message handler registered by `(*Subscriber).Subscribe`.  `unmarshal` stands for
`json.Unmarshal(m.Data, &order)` into a zero `order` (`none` when it returns an error). -/
def handler (unmarshal : List UInt8 → Option Order) (sch : Schema) (env : WriteEnv)
    (s : Service) (data : List UInt8) : Service :=
  match unmarshal data with
  | none => s
  | some order =>
    if order.OrderUID = "" then s
    else
      match SaveOrder sch env s.db order with
      | (db, some _) => { s with db := db }
      | (db, none) => { db := db, cache := s.cache.Set order.OrderUID order }

/-- The cache restore of `main`: `NewOrderCache`, `GetAllOrders`, and `LoadFromDB` when the
load returned no error. -/
def restore (env : ReadEnv) (db : Store) : Service :=
  match GetAllOrders env db with
  | Except.error _ => { db := db, cache := NewOrderCache }
  | Except.ok orders => { db := db, cache := NewOrderCache.LoadFromDB orders }

/-- The handler run on a sequence of deliveries, each with the driver errors it meets. -/
def deliver (unmarshal : List UInt8 → Option Order) (sch : Schema) (s : Service) :
    List (WriteEnv × List UInt8) → Service
  | [] => s
  | (env, data) :: rest => deliver unmarshal sch (handler unmarshal sch env s data) rest

/-- `SaveOrder` run on a list of orders, each with the driver errors it meets; `none` as
soon as one call returns an error. -/
def saveAll (sch : Schema) (db : Store) : List (WriteEnv × Order) → Option Store
  | [] => some db
  | (env, order) :: rest =>
    match SaveOrder sch env db order with
    | (_, some _) => none
    | (db1, none) => saveAll sch db1 rest

/-! ## Definitions used to state the properties -/

/-- The store published by a call of `SaveOrder` that returns `nil`: the root row is added
unless the identifier is already there, the other rows are appended. -/
def committedStore (db : Store) (order : Order) : Store :=
  { orders :=
      if hasOrder db.orders order.OrderUID then db.orders
      else db.orders ++ [orderRow order]
    deliveries := db.deliveries ++ [deliveryRow order]
    payments := db.payments ++ [paymentRow order]
    items := db.items ++ order.Items.map (itemRow order.OrderUID) }

/-- The four insert stages of `SaveOrder`, by the word used in its error texts. -/
def insertStages : List String := ["order", "delivery", "payment", "item"]

/-- An error text names an insert stage when it starts with the text that `SaveOrder`
wraps around the errors of that insert. -/
def namesStage (msg : String) (stage : String) : Bool :=
  (errorf ("error inserting " ++ stage) "").data.isPrefixOf msg.data

/-- A driver in which exactly the call `st` fails, with error text `e`. -/
def WriteEnv.failAt (st : Stage) (e : String) : WriteEnv :=
  fun st' => if st' = st then some e else none

/-- A decoder for examples: the payload `[1]` is order `a`, the payload `[2]` is order `b`,
the payload `[3]` is an order without identifier, any other payload is malformed. -/
def sampleUnmarshal (a b : Order) : List UInt8 → Option Order
  | [1] => some a
  | [2] => some b
  | [3] => some Order.zero
  | _ => none

/-- An example order with one item. -/
def sampleOrder : Order :=
  { Order.zero with
    OrderUID := "b563feb7b2b84b6test"
    TrackNumber := "WBILMTESTTRACK"
    Delivery := { Delivery.zero with Name := "Test Testov", City := "Kiryat Mozkin" }
    Payment := { Payment.zero with Currency := "USD", Amount := 1817 }
    Items := [{ Item.zero with Name := "Mascara", TotalPrice := 453 }] }

/-- A second payload for the identifier of `sampleOrder`. -/
def sampleOrderAgain : Order :=
  { sampleOrder with
    Entry := "WBIL"
    Items := [{ Item.zero with Name := "Mascara", TotalPrice := 453 },
              { Item.zero with Name := "Lipstick", TotalPrice := 300 }] }

/-- An example order with another identifier and no item. -/
def otherOrder : Order :=
  { Order.zero with
    OrderUID := "a1"
    Delivery := { Delivery.zero with Name := "Ivan" }
    Payment := { Payment.zero with Amount := 5 } }

/-- Modelled from the spec: the table declarations, which are missing.  The spec has one
delivery row and one payment row per order identifier and a duplicate-key failure of the
delivery or payment insert on a second save, so both tables carry a key on `order_uid`. -/
def keyedSchema : Schema :=
  { deliveries_order_uid_key := some "deliveries_order_uid_key"
    payments_order_uid_key := some "payments_order_uid_key" }

/-- A schema without unique constraint on `deliveries` and `payments`. -/
def plainSchema : Schema :=
  { deliveries_order_uid_key := none
    payments_order_uid_key := none }

/-- A read in which every query succeeds and the fetch of the root row of index `i` fails. -/
def ReadEnv.rootFetchFailsAt (i : Nat) (e : String) : ReadEnv :=
  { ReadEnv.healthy with ordersNext := fun j => if j = i then some e else none }

/-- The item rows written for a list of orders saved one after the other. -/
def itemRowsOf : List Order → List ItemRow
  | [] => []
  | o :: rest => o.Items.map (itemRow o.OrderUID) ++ itemRowsOf rest

/-- The store that holds exactly the rows of the given orders, in the given sequence. -/
def storeOf (orders : List Order) : Store :=
  { orders := orders.map orderRow
    deliveries := orders.map deliveryRow
    payments := orders.map paymentRow
    items := itemRowsOf orders }

/-- The order as it stands after the root `Scan` of `GetAllOrders`: root attributes only. -/
def rootOf (o : Order) : Order :=
  { o with Delivery := Delivery.zero, Payment := Payment.zero, Items := [] }

/-- A store with damaged content: `sampleOrder` is complete, a second root row has a `NULL`
column, and the root row of `otherOrder` has no delivery row, no payment row and one item
row with a `NULL` column. -/
def damagedStore : Store :=
  { orders := [orderRow sampleOrder,
               { orderRow otherOrder with order_uid := some "x9", locale := none },
               orderRow otherOrder]
    deliveries := [deliveryRow sampleOrder]
    payments := [paymentRow sampleOrder]
    items := [{ itemRow "a1" Item.zero with price := none },
              itemRow "b563feb7b2b84b6test" { Item.zero with Name := "Mascara", TotalPrice := 453 }] }

/-! ### Lemmas on the map -/

theorem mapIndex_mapAssign_same (m : List (String × Order)) (k : String) (v : Order) :
    mapIndex (mapAssign m k v) k = (v, true) := by
  induction m with
  | nil => simp [mapAssign, mapIndex]
  | cons p rest ih =>
    obtain ⟨k', v'⟩ := p
    by_cases h : k' = k
    · simp [mapAssign, mapIndex, h]
    · simp [mapAssign, mapIndex, h, ih]

theorem mapIndex_mapAssign_other (m : List (String × Order)) (k k' : String) (v : Order)
    (h : k' ≠ k) : mapIndex (mapAssign m k' v) k = mapIndex m k := by
  induction m with
  | nil => simp [mapAssign, mapIndex, h]
  | cons p rest ih =>
    obtain ⟨k'', v''⟩ := p
    by_cases h1 : k'' = k'
    · subst h1
      simp [mapAssign, mapIndex, h]
    · by_cases h2 : k'' = k
      · subst h2
        simp [mapAssign, mapIndex, h1]
      · simp [mapAssign, mapIndex, h1, h2, ih]

theorem mapAssign_twice (m : List (String × Order)) (k : String) (v : Order) :
    mapAssign (mapAssign m k v) k v = mapAssign m k v := by
  induction m with
  | nil => simp [mapAssign]
  | cons p rest ih =>
    obtain ⟨k', v'⟩ := p
    by_cases h : k' = k
    · simp [mapAssign, h]
    · simp [mapAssign, h, ih]

theorem applySets_append (c : OrderCache) (xs ys : List (String × Order)) :
    applySets c (xs ++ ys) = applySets (applySets c xs) ys := by
  induction xs generalizing c with
  | nil => rfl
  | cons p rest ih =>
    obtain ⟨k, v⟩ := p
    simp [applySets, ih]

theorem get_applySets_other (c : OrderCache) (calls : List (String × Order)) (k : String)
    (h : ∀ p ∈ calls, p.1 ≠ k) : (applySets c calls).Get k = c.Get k := by
  induction calls generalizing c with
  | nil => rfl
  | cons p rest ih =>
    obtain ⟨k', v⟩ := p
    have hk : k' ≠ k := h (k', v) (by simp)
    have hrest : ∀ q ∈ rest, q.1 ≠ k := fun q hq => h q (by simp [hq])
    simp only [applySets]
    rw [ih _ hrest]
    exact mapIndex_mapAssign_other c.orders k k' v hk

/-! ## Claims on the cache -/

/-- C1: after any sequence of `Set` calls on a new cache, `Get k` returns the order of the
last `Set` whose key was `k` together with `true`, and reports `false` (with the zero
order) when no `Set` of the sequence used the key `k`. -/
theorem cache_get_returns_last_set (calls : List (String × Order)) (k : String) :
    (∀ (before after : List (String × Order)) (o : Order),
        calls = before ++ (k, o) :: after → (∀ p ∈ after, p.1 ≠ k) →
        (applySets NewOrderCache calls).Get k = (o, true)) ∧
    ((∀ p ∈ calls, p.1 ≠ k) →
        (applySets NewOrderCache calls).Get k = (Order.zero, false)) := by
  constructor
  · intro before after o hcalls hafter
    subst hcalls
    rw [applySets_append]
    simp only [applySets]
    rw [get_applySets_other _ after k hafter]
    exact mapIndex_mapAssign_same _ k o
  · intro h
    rw [get_applySets_other _ calls k h]
    rfl

/-- C1 at a concrete sequence: two `Set`s on `"a"`, one on `"b"`; the later `"a"` wins. -/
theorem cache_get_returns_last_set_witness :
    (applySets NewOrderCache
        [("a", { Order.zero with OrderUID := "a", Entry := "first" }),
         ("a", { Order.zero with OrderUID := "a", Entry := "second" }),
         ("b", { Order.zero with OrderUID := "b" })]).Get "a"
      = ({ Order.zero with OrderUID := "a", Entry := "second" }, true) :=
  (cache_get_returns_last_set _ "a").1
    [("a", { Order.zero with OrderUID := "a", Entry := "first" })]
    [("b", { Order.zero with OrderUID := "b" })]
    { Order.zero with OrderUID := "a", Entry := "second" }
    rfl (by decide)

/-! ## Lemmas on `SaveOrder` -/

theorem execInsertOrder_ok (env : WriteEnv) (tx tx1 : Store) (order : Order)
    (h : execInsertOrder env tx order = Except.ok tx1) :
    tx1 = { tx with orders :=
      (if hasOrder tx.orders order.OrderUID then tx.orders
       else tx.orders ++ [orderRow order]) } := by
  unfold execInsertOrder at h
  split at h
  · cases h
  · split at h
    · next hc => cases h; simp [hc]
    · next hc => cases h; simp [hc]

theorem execInsertDelivery_ok (sch : Schema) (env : WriteEnv) (tx tx1 : Store) (order : Order)
    (h : execInsertDelivery sch env tx order = Except.ok tx1) :
    tx1 = { tx with deliveries := tx.deliveries ++ [deliveryRow order] } := by
  unfold execInsertDelivery at h
  split at h
  · cases h
  · split at h
    · split at h
      · cases h
      · cases h; rfl
    · cases h; rfl

theorem execInsertPayment_ok (sch : Schema) (env : WriteEnv) (tx tx1 : Store) (order : Order)
    (h : execInsertPayment sch env tx order = Except.ok tx1) :
    tx1 = { tx with payments := tx.payments ++ [paymentRow order] } := by
  unfold execInsertPayment at h
  split at h
  · cases h
  · split at h
    · split at h
      · cases h
      · cases h; rfl
    · cases h; rfl

theorem execInsertItems_ok (env : WriteEnv) (orderUID : String) (items : List Item) (i : Nat)
    (tx tx1 : Store) (h : execInsertItems env orderUID items i tx = Except.ok tx1) :
    tx1 = { tx with items := tx.items ++ items.map (itemRow orderUID) } := by
  induction items generalizing i tx with
  | nil =>
    simp only [execInsertItems] at h
    cases h
    simp
  | cons item rest ih =>
    simp only [execInsertItems] at h
    split at h
    · cases h
    · have := ih _ _ h
      simp [this]

/-- A call of `SaveOrder` either returns an error and the store it was given, or returns
`nil` and the store with the rows of the order added. -/
theorem SaveOrder_cases (sch : Schema) (env : WriteEnv) (db : Store) (order : Order) :
    (∃ e, SaveOrder sch env db order = (db, some e)) ∨
    SaveOrder sch env db order = (committedStore db order, none) := by
  unfold SaveOrder
  split
  · exact Or.inl ⟨_, rfl⟩
  · split
    · exact Or.inl ⟨_, rfl⟩
    · next tx1 h1 =>
      split
      · exact Or.inl ⟨_, rfl⟩
      · next tx2 h2 =>
        split
        · exact Or.inl ⟨_, rfl⟩
        · next tx3 h3 =>
          split
          · exact Or.inl ⟨_, rfl⟩
          · next tx4 h4 =>
            split
            · exact Or.inl ⟨_, rfl⟩
            · right
              have e1 := execInsertOrder_ok _ _ _ _ h1
              have e2 := execInsertDelivery_ok _ _ _ _ _ h2
              have e3 := execInsertPayment_ok _ _ _ _ _ h3
              have e4 := execInsertItems_ok _ _ _ _ _ _ h4
              subst e1 e2 e3 e4
              simp [committedStore]

theorem SaveOrder_error_store (sch : Schema) (env : WriteEnv) (db : Store) (order : Order)
    (e : String) (h : (SaveOrder sch env db order).2 = some e) :
    (SaveOrder sch env db order).1 = db := by
  rcases SaveOrder_cases sch env db order with ⟨e', h'⟩ | h'
  · rw [h']
  · rw [h'] at h
    cases h

theorem SaveOrder_ok_store (sch : Schema) (env : WriteEnv) (db : Store) (order : Order)
    (h : (SaveOrder sch env db order).2 = none) :
    (SaveOrder sch env db order).1 = committedStore db order := by
  rcases SaveOrder_cases sch env db order with ⟨e', h'⟩ | h'
  · rw [h'] at h
    cases h
  · rw [h']

theorem hasOrder_append (rows more : List OrderRow) (orderUID : String) :
    hasOrder (rows ++ more) orderUID = (hasOrder rows orderUID || hasOrder more orderUID) := by
  simp [hasOrder]

theorem hasOrder_committedStore (db : Store) (order : Order) :
    hasOrder (committedStore db order).orders order.OrderUID = true := by
  unfold committedStore
  by_cases h : hasOrder db.orders order.OrderUID = true
  · simp [h]
  · simp only [h]
    rw [if_neg (by simp), hasOrder_append]
    simp [hasOrder, orderRow]

theorem hasOrder_committedStore_mono (db : Store) (order : Order) (orderUID : String)
    (h : hasOrder db.orders orderUID = true) :
    hasOrder (committedStore db order).orders orderUID = true := by
  unfold committedStore
  by_cases hc : hasOrder db.orders order.OrderUID = true
  · simp [hc, h]
  · simp only [hc]
    rw [if_neg (by simp), hasOrder_append, h]
    rfl

/-! ## Lemmas on `GetAllOrders`, the cache and the handler -/

theorem scanOrder_uid (r : OrderRow) (o : Order) (h : scanOrder r = some o) :
    r.order_uid = some o.OrderUID := by
  unfold scanOrder at h
  repeat' split at h
  all_goals cases h
  simp_all

theorem loadOrder_uid (env : ReadEnv) (db : Store) (o : Order) :
    (loadOrder env db o).OrderUID = o.OrderUID := rfl

/-- Without fetch error the outer loop of `GetAllOrders` appends one loaded order per
row that scans. -/
theorem getAllOrdersLoop_eq (env : ReadEnv) (db : Store) (rows : List OrderRow) (i : Nat)
    (acc : List Order) (hnext : ∀ j, env.ordersNext j = none) :
    getAllOrdersLoop env db rows i acc
      = acc ++ (rows.filterMap scanOrder).map (loadOrder env db) := by
  induction rows generalizing i acc with
  | nil => simp [getAllOrdersLoop]
  | cons r rest ih =>
    simp only [getAllOrdersLoop, hnext i]
    cases hr : scanOrder r with
    | none => simp [ih, List.filterMap_cons, hr]
    | some o => simp [ih, List.filterMap_cons, hr]

/-- With or without fetch error the outer loop of `GetAllOrders` appends an initial
segment of the orders loaded for the rows that scan. -/
theorem getAllOrdersLoop_initial (env : ReadEnv) (db : Store) (rows : List OrderRow) (i : Nat)
    (acc : List Order) :
    ∃ l, getAllOrdersLoop env db rows i acc = acc ++ l ∧
      l <+: (rows.filterMap scanOrder).map (loadOrder env db) := by
  induction rows generalizing i acc with
  | nil => exact ⟨[], by simp [getAllOrdersLoop], List.nil_prefix⟩
  | cons r rest ih =>
    simp only [getAllOrdersLoop]
    cases hnext : env.ordersNext i with
    | some e => exact ⟨[], by simp, List.nil_prefix⟩
    | none =>
      cases hr : scanOrder r with
      | none =>
        obtain ⟨l, hl, hpre⟩ := ih (i + 1) acc
        exact ⟨l, hl, by simpa [List.filterMap_cons, hr] using hpre⟩
      | some o =>
        obtain ⟨l, hl, hpre⟩ := ih (i + 1) (acc ++ [loadOrder env db o])
        refine ⟨loadOrder env db o :: l, by simpa using hl, ?_⟩
        simp only [List.filterMap_cons, hr, List.map_cons]
        obtain ⟨t, ht⟩ := hpre
        exact ⟨t, by simp [ht]⟩

theorem GetAllOrders_uid_in_store (env : ReadEnv) (db : Store) (orders : List Order)
    (h : GetAllOrders env db = Except.ok orders) (o : Order) (ho : o ∈ orders) :
    hasOrder db.orders o.OrderUID = true := by
  unfold GetAllOrders at h
  split at h
  · cases h
  · cases h
    obtain ⟨l, hl, hpre⟩ := getAllOrdersLoop_initial env db db.orders 0 []
    rw [hl] at ho
    simp only [List.nil_append] at ho
    have ho' := hpre.subset ho
    simp only [List.mem_map, List.mem_filterMap] at ho'
    obtain ⟨root, ⟨r, hr, hscan⟩, hload⟩ := ho'
    subst hload
    rw [loadOrder_uid]
    simp only [hasOrder, List.any_eq_true, decide_eq_true_eq]
    exact ⟨r, hr, scanOrder_uid r root hscan⟩

theorem get_set (c : OrderCache) (k id : String) (v : Order) :
    (c.Set k v).Get id = if k = id then (v, true) else c.Get id := by
  by_cases h : k = id
  · subst h
    simp only [if_true]
    exact mapIndex_mapAssign_same c.orders k v
  · simp only [h, if_false]
    exact mapIndex_mapAssign_other c.orders id k v h

theorem get_loadFromDB_found (c : OrderCache) (orders : List Order) (id : String)
    (h : ((c.LoadFromDB orders).Get id).2 = true) :
    (c.Get id).2 = true ∨ ∃ o ∈ orders, o.OrderUID = id := by
  induction orders generalizing c with
  | nil => exact Or.inl h
  | cons o rest ih =>
    simp only [OrderCache.LoadFromDB] at h
    rcases ih _ h with h1 | ⟨o', ho', hid⟩
    · have hset := get_set c o.OrderUID id o
      simp only [OrderCache.Set] at hset
      rw [hset] at h1
      by_cases hk : o.OrderUID = id
      · exact Or.inr ⟨o, by simp, hk⟩
      · simp only [hk, if_false] at h1
        exact Or.inl h1
    · exact Or.inr ⟨o', by simp [ho'], hid⟩

/-- One run of the handler either changes nothing, or it has decoded an order with an
identifier, saved it, and set the cache entry of that identifier. -/
theorem handler_cases (unmarshal : List UInt8 → Option Order) (sch : Schema) (env : WriteEnv)
    (s : Service) (data : List UInt8) :
    ((∀ order, unmarshal data = some order → order.OrderUID ≠ "" →
        (SaveOrder sch env s.db order).2 ≠ none) ∧
      handler unmarshal sch env s data = s) ∨
    ∃ order, unmarshal data = some order ∧ order.OrderUID ≠ "" ∧
      SaveOrder sch env s.db order = (committedStore s.db order, none) ∧
      handler unmarshal sch env s data
        = ⟨committedStore s.db order, s.cache.Set order.OrderUID order⟩ := by
  unfold handler
  cases hdec : unmarshal data with
  | none => exact Or.inl ⟨fun _ h => (by cases h), rfl⟩
  | some order =>
    by_cases hid : order.OrderUID = ""
    · left
      refine ⟨fun o h hne => ?_, by simp [hid]⟩
      cases h
      exact absurd hid hne
    · simp only [hid, if_false]
      rcases SaveOrder_cases sch env s.db order with ⟨e, hsave⟩ | hsave
      · left
        refine ⟨fun o h _ => ?_, by rw [hsave]⟩
        cases h
        rw [hsave]
        simp
      · right
        exact ⟨order, rfl, hid, hsave, by rw [hsave]⟩

/-- The invariant of C2: every identifier found in the cache has a root row. -/
theorem restore_cache_in_store (env : ReadEnv) (db : Store) (id : String)
    (h : ((restore env db).cache.Get id).2 = true) :
    hasOrder (restore env db).db.orders id = true := by
  unfold restore at h ⊢
  cases hload : GetAllOrders env db with
  | error e =>
    rw [hload] at h
    simp [NewOrderCache, OrderCache.Get, mapIndex] at h
  | ok orders =>
    rw [hload] at h
    simp only at h ⊢
    rcases get_loadFromDB_found _ _ _ h with h1 | ⟨o, ho, hid⟩
    · simp [NewOrderCache, OrderCache.Get, mapIndex] at h1
    · subst hid
      exact GetAllOrders_uid_in_store env db orders hload o ho

theorem handler_cache_in_store (unmarshal : List UInt8 → Option Order) (sch : Schema)
    (env : WriteEnv) (s : Service) (data : List UInt8)
    (inv : ∀ id, (s.cache.Get id).2 = true → hasOrder s.db.orders id = true) (id : String)
    (h : ((handler unmarshal sch env s data).cache.Get id).2 = true) :
    hasOrder (handler unmarshal sch env s data).db.orders id = true := by
  rcases handler_cases unmarshal sch env s data with ⟨_, hs⟩ | ⟨order, _, _, _, hs⟩
  · rw [hs] at h ⊢
    exact inv id h
  · rw [hs] at h ⊢
    simp only at h ⊢
    rw [get_set] at h
    by_cases hk : order.OrderUID = id
    · subst hk
      exact hasOrder_committedStore s.db order
    · simp only [hk, if_false] at h
      exact hasOrder_committedStore_mono s.db order id (inv id h)

theorem deliver_cache_in_store (unmarshal : List UInt8 → Option Order) (sch : Schema)
    (s : Service) (deliveries : List (WriteEnv × List UInt8))
    (inv : ∀ id, (s.cache.Get id).2 = true → hasOrder s.db.orders id = true) (id : String)
    (h : ((deliver unmarshal sch s deliveries).cache.Get id).2 = true) :
    hasOrder (deliver unmarshal sch s deliveries).db.orders id = true := by
  induction deliveries generalizing s with
  | nil => exact inv id h
  | cons d rest ih =>
    obtain ⟨env, data⟩ := d
    simp only [deliver] at h ⊢
    exact ih _ (fun id' h' => handler_cache_in_store unmarshal sch env s data inv id' h') h

theorem hasDelivery_append (rows more : List DeliveryRow) (orderUID : String) :
    hasDelivery (rows ++ more) orderUID
      = (hasDelivery rows orderUID || hasDelivery more orderUID) := by
  simp [hasDelivery]

theorem hasPayment_append (rows more : List PaymentRow) (orderUID : String) :
    hasPayment (rows ++ more) orderUID
      = (hasPayment rows orderUID || hasPayment more orderUID) := by
  simp [hasPayment]

/-- Under a schema with a key on `deliveries` or on `payments`, saving an order again
right after it was saved returns an error, whatever the driver does. -/
theorem SaveOrder_again_fails (sch : Schema) (env : WriteEnv) (db : Store) (order : Order)
    (hkey : sch.deliveries_order_uid_key ≠ none ∨ sch.payments_order_uid_key ≠ none) :
    ∃ e, SaveOrder sch env (committedStore db order) order
      = (committedStore db order, some e) := by
  rcases SaveOrder_cases sch env (committedStore db order) order with h | h
  · exact h
  · exfalso
    have hd : hasDelivery (committedStore db order).deliveries order.OrderUID = true := by
      simp [committedStore, hasDelivery, deliveryRow]
    have hp : hasPayment (committedStore db order).payments order.OrderUID = true := by
      simp [committedStore, hasPayment, paymentRow]
    have h := congrArg Prod.snd h
    simp only at h
    unfold SaveOrder at h
    split at h
    · simp at h
    · split at h
      · simp at h
      · next tx1 h1 =>
        have e1 := execInsertOrder_ok _ _ _ _ h1
        split at h
        · simp at h
        · next tx2 h2 =>
          have e2 := execInsertDelivery_ok _ _ _ _ _ h2
          split at h
          · simp at h
          · next tx3 h3 =>
            cases hdk : sch.deliveries_order_uid_key with
            | some key =>
              unfold execInsertDelivery at h2
              rw [hdk] at h2
              have hd1 : hasDelivery tx1.deliveries order.OrderUID = true := by
                rw [e1]
                exact hd
              split at h2
              · cases h2
              · simp [hd1] at h2
            | none =>
              cases hpk : sch.payments_order_uid_key with
              | none => simp [hdk, hpk] at hkey
              | some key =>
                unfold execInsertPayment at h3
                rw [hpk] at h3
                have hp2 : hasPayment tx2.payments order.OrderUID = true := by
                  rw [e2, e1]
                  exact hp
                split at h3
                · cases h3
                · simp [hp2] at h3

/-! ## Claims on `SaveOrder` and on the handler -/

/-- C3: a message whose payload does not decode, or whose decoded order has an empty
`OrderUID`, leaves the store and the cache exactly as they were (neither `SaveOrder` nor
`Set` takes effect). -/
theorem handler_discards_invalid_message (unmarshal : List UInt8 → Option Order)
    (sch : Schema) (env : WriteEnv) (s : Service) (data : List UInt8)
    (h : unmarshal data = none ∨ ∃ order, unmarshal data = some order ∧ order.OrderUID = "") :
    handler unmarshal sch env s data = s := by
  unfold handler
  rcases h with h | ⟨order, h, hid⟩
  · rw [h]
  · rw [h]
    simp [hid]

/-- C3 on a malformed payload and on a payload without identifier. -/
theorem handler_discards_invalid_message_witness :
    handler (sampleUnmarshal sampleOrder otherOrder) keyedSchema WriteEnv.healthy
        ⟨Store.empty, NewOrderCache⟩ [7] = ⟨Store.empty, NewOrderCache⟩ ∧
    handler (sampleUnmarshal sampleOrder otherOrder) keyedSchema WriteEnv.healthy
        ⟨Store.empty, NewOrderCache⟩ [3] = ⟨Store.empty, NewOrderCache⟩ :=
  ⟨handler_discards_invalid_message _ _ _ _ [7] (Or.inl rfl),
   handler_discards_invalid_message _ _ _ _ [3] (Or.inr ⟨Order.zero, rfl, rfl⟩)⟩

/-- C4: `SaveOrder` is all-or-nothing.  When it returns an error the store is the store
before the call, so `GetAllOrders` sees none of the rows of the call; when it returns `nil`
the root row (inserted when the identifier was not present), the delivery row, the payment
row and every item row of the order are in the store. -/
theorem SaveOrder_all_or_nothing (sch : Schema) (env : WriteEnv) (db : Store) (order : Order) :
    (∀ e, (SaveOrder sch env db order).2 = some e →
        (SaveOrder sch env db order).1 = db ∧
        ∀ renv, GetAllOrders renv (SaveOrder sch env db order).1 = GetAllOrders renv db) ∧
    ((SaveOrder sch env db order).2 = none →
        hasOrder (SaveOrder sch env db order).1.orders order.OrderUID = true ∧
        (hasOrder db.orders order.OrderUID = false →
          orderRow order ∈ (SaveOrder sch env db order).1.orders) ∧
        deliveryRow order ∈ (SaveOrder sch env db order).1.deliveries ∧
        paymentRow order ∈ (SaveOrder sch env db order).1.payments ∧
        ∀ item ∈ order.Items,
          itemRow order.OrderUID item ∈ (SaveOrder sch env db order).1.items) := by
  constructor
  · intro e h
    have hs := SaveOrder_error_store sch env db order e h
    exact ⟨hs, fun renv => by rw [hs]⟩
  · intro h
    rw [SaveOrder_ok_store sch env db order h]
    refine ⟨hasOrder_committedStore db order, ?_, ?_, ?_, ?_⟩
    · intro hno
      simp [committedStore, hno]
    · simp [committedStore]
    · simp [committedStore]
    · intro item hitem
      simp only [committedStore, List.mem_append, List.mem_map]
      exact Or.inr ⟨item, hitem, rfl⟩

/-- C4 on a call whose second item insert fails (store untouched) and on a call that
commits (all rows present). -/
theorem SaveOrder_all_or_nothing_witness :
    (SaveOrder keyedSchema (WriteEnv.failAt (Stage.insertItem 1) "driver: bad connection")
        Store.empty sampleOrderAgain).1 = Store.empty ∧
    deliveryRow sampleOrder ∈
      (SaveOrder keyedSchema WriteEnv.healthy Store.empty sampleOrder).1.deliveries :=
  ⟨((SaveOrder_all_or_nothing keyedSchema
        (WriteEnv.failAt (Stage.insertItem 1) "driver: bad connection")
        Store.empty sampleOrderAgain).1
      (errorf "error inserting item" "driver: bad connection") (by decide)).1,
   ((SaveOrder_all_or_nothing keyedSchema WriteEnv.healthy Store.empty sampleOrder).2
      (by decide)).2.2.1⟩

/-- C7: when the store already holds a root row for the identifier of the order,
`SaveOrder` leaves table `orders` as it is, whether it returns an error or not, and the
root insert can only fail with an error of the driver, never because of the identifier. -/
theorem SaveOrder_keeps_root_row (sch : Schema) (env : WriteEnv) (db : Store) (order : Order)
    (h : hasOrder db.orders order.OrderUID = true) :
    (SaveOrder sch env db order).1.orders = db.orders ∧
    (∀ r, r ∈ (SaveOrder sch env db order).1.orders ↔ r ∈ db.orders) ∧
    (env Stage.insertOrder = none → execInsertOrder env db order = Except.ok db) ∧
    (∀ e, execInsertOrder env db order = Except.error e → env Stage.insertOrder = some e) := by
  have horders : (SaveOrder sch env db order).1.orders = db.orders := by
    rcases SaveOrder_cases sch env db order with ⟨e, h'⟩ | h'
    · rw [h']
    · rw [h']
      simp [committedStore, h]
  refine ⟨horders, fun r => by rw [horders], ?_, ?_⟩
  · intro henv
    simp [execInsertOrder, henv, h]
  · intro e he
    unfold execInsertOrder at he
    split at he
    · next e' henv =>
      cases he
      exact henv
    · simp [h] at he

/-- C7 on a second payload for an identifier that is already stored. -/
theorem SaveOrder_keeps_root_row_witness :
    (SaveOrder plainSchema WriteEnv.healthy
        (SaveOrder plainSchema WriteEnv.healthy Store.empty sampleOrder).1
        sampleOrderAgain).1.orders = [orderRow sampleOrder] :=
  (SaveOrder_keeps_root_row plainSchema WriteEnv.healthy
    (SaveOrder plainSchema WriteEnv.healthy Store.empty sampleOrder).1 sampleOrderAgain
    (by decide)).1

/-- C9 as stated fails: when `Commit` fails, `SaveOrder` returns the error of the driver
as it is, and when `Begin` fails the text is `error starting transaction: ...`; neither
text names any of the four insert stages. -/
theorem SaveOrder_error_without_stage :
    (SaveOrder keyedSchema (WriteEnv.failAt Stage.commit "driver: bad connection")
        Store.empty sampleOrder
      = (Store.empty, some "driver: bad connection") ∧
     insertStages.filter (namesStage "driver: bad connection") = []) ∧
    (SaveOrder keyedSchema (WriteEnv.failAt Stage.begin "driver: bad connection")
        Store.empty sampleOrder
      = (Store.empty, some "error starting transaction: driver: bad connection") ∧
     insertStages.filter
        (namesStage "error starting transaction: driver: bad connection") = []) := by
  decide

/-- C9, amended: an error of `SaveOrder` comes from the first driver call that failed.
For a failed insert the text is `error inserting order|delivery|payment|item: ` followed by
the error of that insert, all earlier inserts having succeeded; a failed `Begin` gives
`error starting transaction: ...`; a failed `Commit` gives the bare error of the driver. -/
theorem SaveOrder_error_names_failed_call (sch : Schema) (env : WriteEnv) (db : Store)
    (order : Order) (e : String) (h : (SaveOrder sch env db order).2 = some e) :
    (∃ c, env Stage.begin = some c ∧ e = errorf "error starting transaction" c) ∨
    (env Stage.begin = none ∧
      ∃ c, execInsertOrder env db order = Except.error c ∧
        e = errorf "error inserting order" c) ∨
    (env Stage.begin = none ∧
      ∃ tx1 c, execInsertOrder env db order = Except.ok tx1 ∧
        execInsertDelivery sch env tx1 order = Except.error c ∧
        e = errorf "error inserting delivery" c) ∨
    (env Stage.begin = none ∧
      ∃ tx1 tx2 c, execInsertOrder env db order = Except.ok tx1 ∧
        execInsertDelivery sch env tx1 order = Except.ok tx2 ∧
        execInsertPayment sch env tx2 order = Except.error c ∧
        e = errorf "error inserting payment" c) ∨
    (env Stage.begin = none ∧
      ∃ tx1 tx2 tx3 c, execInsertOrder env db order = Except.ok tx1 ∧
        execInsertDelivery sch env tx1 order = Except.ok tx2 ∧
        execInsertPayment sch env tx2 order = Except.ok tx3 ∧
        execInsertItems env order.OrderUID order.Items 0 tx3 = Except.error c ∧
        e = errorf "error inserting item" c) ∨
    (env Stage.begin = none ∧
      ∃ tx1 tx2 tx3 tx4, execInsertOrder env db order = Except.ok tx1 ∧
        execInsertDelivery sch env tx1 order = Except.ok tx2 ∧
        execInsertPayment sch env tx2 order = Except.ok tx3 ∧
        execInsertItems env order.OrderUID order.Items 0 tx3 = Except.ok tx4 ∧
        env Stage.commit = some e) := by
  unfold SaveOrder at h
  split at h
  · next c hb =>
    left
    exact ⟨c, hb, by simpa using h.symm⟩
  · next hb =>
    right
    split at h
    · next c h1 =>
      left
      exact ⟨hb, c, h1, by simpa using h.symm⟩
    · next tx1 h1 =>
      right
      split at h
      · next c h2 =>
        left
        exact ⟨hb, tx1, c, h1, h2, by simpa using h.symm⟩
      · next tx2 h2 =>
        right
        split at h
        · next c h3 =>
          left
          exact ⟨hb, tx1, tx2, c, h1, h2, h3, by simpa using h.symm⟩
        · next tx3 h3 =>
          right
          split at h
          · next c h4 =>
            left
            exact ⟨hb, tx1, tx2, tx3, c, h1, h2, h3, h4, by simpa using h.symm⟩
          · next tx4 h4 =>
            right
            split at h
            · next c hc =>
              have hce : c = e := by simpa using h
              subst hce
              exact ⟨hb, tx1, tx2, tx3, tx4, h1, h2, h3, h4, hc⟩
            · simp at h

/-- C9, amended, on a redelivery under a keyed schema: the delivery insert is the call
that fails and the text says so. -/
theorem SaveOrder_error_names_failed_call_witness :
    (SaveOrder keyedSchema WriteEnv.healthy (committedStore Store.empty sampleOrder)
        sampleOrder).2
      = some (errorf "error inserting delivery" (uniqueViolation "deliveries_order_uid_key")) ∧
    ((∃ c, WriteEnv.healthy Stage.begin = some c ∧
        errorf "error inserting delivery" (uniqueViolation "deliveries_order_uid_key")
          = errorf "error starting transaction" c) ∨
    (WriteEnv.healthy Stage.begin = none ∧
      ∃ c, execInsertOrder WriteEnv.healthy (committedStore Store.empty sampleOrder)
          sampleOrder = Except.error c ∧
        errorf "error inserting delivery" (uniqueViolation "deliveries_order_uid_key")
          = errorf "error inserting order" c) ∨
    (WriteEnv.healthy Stage.begin = none ∧
      ∃ tx1 c, execInsertOrder WriteEnv.healthy (committedStore Store.empty sampleOrder)
          sampleOrder = Except.ok tx1 ∧
        execInsertDelivery keyedSchema WriteEnv.healthy tx1 sampleOrder = Except.error c ∧
        errorf "error inserting delivery" (uniqueViolation "deliveries_order_uid_key")
          = errorf "error inserting delivery" c) ∨
    (WriteEnv.healthy Stage.begin = none ∧
      ∃ tx1 tx2 c, execInsertOrder WriteEnv.healthy (committedStore Store.empty sampleOrder)
          sampleOrder = Except.ok tx1 ∧
        execInsertDelivery keyedSchema WriteEnv.healthy tx1 sampleOrder = Except.ok tx2 ∧
        execInsertPayment keyedSchema WriteEnv.healthy tx2 sampleOrder = Except.error c ∧
        errorf "error inserting delivery" (uniqueViolation "deliveries_order_uid_key")
          = errorf "error inserting payment" c) ∨
    (WriteEnv.healthy Stage.begin = none ∧
      ∃ tx1 tx2 tx3 c, execInsertOrder WriteEnv.healthy
          (committedStore Store.empty sampleOrder) sampleOrder = Except.ok tx1 ∧
        execInsertDelivery keyedSchema WriteEnv.healthy tx1 sampleOrder = Except.ok tx2 ∧
        execInsertPayment keyedSchema WriteEnv.healthy tx2 sampleOrder = Except.ok tx3 ∧
        execInsertItems WriteEnv.healthy sampleOrder.OrderUID sampleOrder.Items 0 tx3
          = Except.error c ∧
        errorf "error inserting delivery" (uniqueViolation "deliveries_order_uid_key")
          = errorf "error inserting item" c) ∨
    (WriteEnv.healthy Stage.begin = none ∧
      ∃ tx1 tx2 tx3 tx4, execInsertOrder WriteEnv.healthy
          (committedStore Store.empty sampleOrder) sampleOrder = Except.ok tx1 ∧
        execInsertDelivery keyedSchema WriteEnv.healthy tx1 sampleOrder = Except.ok tx2 ∧
        execInsertPayment keyedSchema WriteEnv.healthy tx2 sampleOrder = Except.ok tx3 ∧
        execInsertItems WriteEnv.healthy sampleOrder.OrderUID sampleOrder.Items 0 tx3
          = Except.ok tx4 ∧
        WriteEnv.healthy Stage.commit
          = some (errorf "error inserting delivery"
              (uniqueViolation "deliveries_order_uid_key")))) :=
  ⟨by decide,
   SaveOrder_error_names_failed_call keyedSchema WriteEnv.healthy
    (committedStore Store.empty sampleOrder) sampleOrder
    (errorf "error inserting delivery" (uniqueViolation "deliveries_order_uid_key"))
    (by decide)⟩

/-! ## Claims on the handler and the cache restore -/

/-- C2: the cache never leads the store.  After the cache restore on any store and any
sequence of handler runs, every identifier that `Get` finds in the cache has a root row in
table `orders`; and a handler run in which `SaveOrder` returns an error leaves the cache
as it was. -/
theorem cache_never_leads_store (unmarshal : List UInt8 → Option Order) (sch : Schema)
    (renv : ReadEnv) (db : Store) (deliveries : List (WriteEnv × List UInt8)) :
    (∀ id, ((deliver unmarshal sch (restore renv db) deliveries).cache.Get id).2 = true →
        hasOrder (deliver unmarshal sch (restore renv db) deliveries).db.orders id = true) ∧
    (∀ (env : WriteEnv) (s : Service) (data : List UInt8) (order : Order),
        unmarshal data = some order → (SaveOrder sch env s.db order).2 ≠ none →
        (handler unmarshal sch env s data).cache = s.cache) := by
  constructor
  · intro id h
    exact deliver_cache_in_store unmarshal sch (restore renv db) deliveries
      (fun id' h' => restore_cache_in_store renv db id' h') id h
  · intro env s data order hdec herr
    rcases handler_cases unmarshal sch env s data with ⟨_, hs⟩ | ⟨order', hdec', _, hsave, _⟩
    · rw [hs]
    · rw [hdec] at hdec'
      cases hdec'
      rw [hsave] at herr
      exact absurd rfl herr

/-- C2 on a run: restore from a store holding `sampleOrder`, then one delivery that is
saved, one that fails at the payment insert, one that is malformed. -/
theorem cache_never_leads_store_witness :
    hasOrder
      (deliver (sampleUnmarshal sampleOrderAgain otherOrder) keyedSchema
        (restore ReadEnv.healthy (committedStore Store.empty sampleOrder))
        [(WriteEnv.healthy, [2]),
         (WriteEnv.failAt Stage.insertPayment "driver: bad connection", [1]),
         (WriteEnv.healthy, [9])]).db.orders "a1" = true :=
  (cache_never_leads_store (sampleUnmarshal sampleOrderAgain otherOrder) keyedSchema
      ReadEnv.healthy (committedStore Store.empty sampleOrder)
      [(WriteEnv.healthy, [2]),
       (WriteEnv.failAt Stage.insertPayment "driver: bad connection", [1]),
       (WriteEnv.healthy, [9])]).1 "a1" (by decide)

/-- C5 as stated fails.  Under a schema that keys `deliveries` by order identifier, a first
delivery stores and caches `sampleOrder`; a second delivery with the same identifier and
the payload `sampleOrderAgain` makes `SaveOrder` fail at the delivery insert, and `Get`
still returns the first payload.  Under a schema without keys the same happens as soon as
the driver fails during the second save. -/
theorem duplicate_delivery_keeps_cached_order :
    (hasOrder
        (handler (sampleUnmarshal sampleOrder sampleOrderAgain) keyedSchema WriteEnv.healthy
          ⟨Store.empty, NewOrderCache⟩ [1]).db.orders sampleOrder.OrderUID = true ∧
     sampleUnmarshal sampleOrder sampleOrderAgain [2] = some sampleOrderAgain ∧
     sampleOrderAgain.OrderUID = sampleOrder.OrderUID ∧
     sampleOrderAgain.OrderUID ≠ "" ∧
     (handler (sampleUnmarshal sampleOrder sampleOrderAgain) keyedSchema WriteEnv.healthy
        (handler (sampleUnmarshal sampleOrder sampleOrderAgain) keyedSchema WriteEnv.healthy
          ⟨Store.empty, NewOrderCache⟩ [1]) [2]).cache.Get sampleOrder.OrderUID
       = (sampleOrder, true) ∧
     (handler (sampleUnmarshal sampleOrder sampleOrderAgain) keyedSchema WriteEnv.healthy
        (handler (sampleUnmarshal sampleOrder sampleOrderAgain) keyedSchema WriteEnv.healthy
          ⟨Store.empty, NewOrderCache⟩ [1]) [2]).cache.Get sampleOrder.OrderUID
       ≠ (sampleOrderAgain, true)) ∧
    (handler (sampleUnmarshal sampleOrder sampleOrderAgain) plainSchema
        (WriteEnv.failAt Stage.commit "driver: bad connection")
        (handler (sampleUnmarshal sampleOrder sampleOrderAgain) plainSchema WriteEnv.healthy
          ⟨Store.empty, NewOrderCache⟩ [1]) [2]).cache.Get sampleOrder.OrderUID
       ≠ (sampleOrderAgain, true) := by
  decide

/-- C5, amended: for a message that decodes to an order with a non-empty identifier,
whether or not the store already holds that identifier, the cache entry of the identifier
is the decoded order when `SaveOrder` returns `nil`, and the cache is left as it was when
`SaveOrder` returns an error. -/
theorem handler_refreshes_cache_iff_saved (unmarshal : List UInt8 → Option Order)
    (sch : Schema) (env : WriteEnv) (s : Service) (data : List UInt8) (order : Order)
    (hdec : unmarshal data = some order) (hid : order.OrderUID ≠ "") :
    ((SaveOrder sch env s.db order).2 = none →
        (handler unmarshal sch env s data).cache.Get order.OrderUID = (order, true)) ∧
    ((SaveOrder sch env s.db order).2 ≠ none →
        (handler unmarshal sch env s data).cache = s.cache) := by
  rcases handler_cases unmarshal sch env s data with ⟨herr, hs⟩ | ⟨order', hdec', _, hsave, hs⟩
  · refine ⟨fun hok => absurd hok (herr order hdec hid), fun _ => by rw [hs]⟩
  · rw [hdec] at hdec'
    cases hdec'
    refine ⟨fun _ => ?_, fun herr => ?_⟩
    · rw [hs]
      simp only
      rw [get_set]
      simp
    · rw [hsave] at herr
      exact absurd rfl herr

/-- C5, amended, on a duplicate delivery that is saved (schema without keys): the cache
entry becomes the second payload. -/
theorem handler_refreshes_cache_iff_saved_witness :
    (handler (sampleUnmarshal sampleOrder sampleOrderAgain) plainSchema WriteEnv.healthy
        (handler (sampleUnmarshal sampleOrder sampleOrderAgain) plainSchema WriteEnv.healthy
          ⟨Store.empty, NewOrderCache⟩ [1]) [2]).cache.Get sampleOrderAgain.OrderUID
      = (sampleOrderAgain, true) :=
  (handler_refreshes_cache_iff_saved (sampleUnmarshal sampleOrder sampleOrderAgain)
      plainSchema WriteEnv.healthy
      (handler (sampleUnmarshal sampleOrder sampleOrderAgain) plainSchema WriteEnv.healthy
        ⟨Store.empty, NewOrderCache⟩ [1]) [2] sampleOrderAgain rfl (by decide)).1 (by decide)

/-- C6: handling a message a second time leaves the state as one handling leaves it.
For the cache this holds under every schema: the cache after two deliveries is the cache
after the first delivery (always so when the first delivery was saved, or when the driver
behaves the same both times), or else the cache that the second delivery alone produces.
Under a schema that keys `deliveries` or `payments` by order identifier the same holds
for the whole state, store included. -/
theorem handler_idempotent (unmarshal : List UInt8 → Option Order) (sch : Schema)
    (env1 env2 : WriteEnv) (s : Service) (data : List UInt8) :
    (((handler unmarshal sch env2 (handler unmarshal sch env1 s data) data).cache
          = (handler unmarshal sch env1 s data).cache ∨
        (handler unmarshal sch env2 (handler unmarshal sch env1 s data) data).cache
          = (handler unmarshal sch env2 s data).cache) ∧
      (env2 = env1 →
        (handler unmarshal sch env2 (handler unmarshal sch env1 s data) data).cache
          = (handler unmarshal sch env1 s data).cache)) ∧
    ((sch.deliveries_order_uid_key ≠ none ∨ sch.payments_order_uid_key ≠ none) →
      (handler unmarshal sch env2 (handler unmarshal sch env1 s data) data
          = handler unmarshal sch env1 s data ∨
        handler unmarshal sch env2 (handler unmarshal sch env1 s data) data
          = handler unmarshal sch env2 s data) ∧
      (env2 = env1 →
        handler unmarshal sch env2 (handler unmarshal sch env1 s data) data
          = handler unmarshal sch env1 s data) ∧
      ((∃ order, unmarshal data = some order ∧ order.OrderUID ≠ "" ∧
          (SaveOrder sch env1 s.db order).2 = none) →
        handler unmarshal sch env2 (handler unmarshal sch env1 s data) data
          = handler unmarshal sch env1 s data)) := by
  rcases handler_cases unmarshal sch env1 s data with ⟨herr, hs⟩ | ⟨order, hdec, hid, hsave, hs⟩
  · refine ⟨⟨Or.inr (by rw [hs]), fun henv => ?_⟩,
      fun _ => ⟨Or.inr (by rw [hs]), fun henv => ?_, fun hok => ?_⟩⟩
    · subst henv
      rw [hs, hs]
    · subst henv
      rw [hs, hs]
    · obtain ⟨order, hdec, hid, hok⟩ := hok
      exact absurd hok (herr order hdec hid)
  · have hcache : (handler unmarshal sch env2 (handler unmarshal sch env1 s data) data).cache
        = (handler unmarshal sch env1 s data).cache := by
      rw [hs]
      unfold handler
      rw [hdec]
      simp only [hid, if_false]
      rcases SaveOrder_cases sch env2 (committedStore s.db order) order with ⟨e, he⟩ | he
      · rw [he]
      · rw [he]
        simp only [OrderCache.Set, mapAssign_twice]
    refine ⟨⟨Or.inl hcache, fun _ => hcache⟩, fun hkey => ?_⟩
    have hagain : handler unmarshal sch env2 (handler unmarshal sch env1 s data) data
        = handler unmarshal sch env1 s data := by
      rw [hs]
      obtain ⟨e, he⟩ := SaveOrder_again_fails sch env2 s.db order hkey
      unfold handler
      rw [hdec]
      simp only [hid, if_false]
      rw [he]
    exact ⟨Or.inl hagain, fun _ => hagain, fun _ => hagain⟩

/-- C6 on a message handled twice from the empty state under `keyedSchema`. -/
theorem handler_idempotent_witness :
    handler (sampleUnmarshal sampleOrder otherOrder) keyedSchema WriteEnv.healthy
        (handler (sampleUnmarshal sampleOrder otherOrder) keyedSchema WriteEnv.healthy
          ⟨Store.empty, NewOrderCache⟩ [1]) [1]
      = handler (sampleUnmarshal sampleOrder otherOrder) keyedSchema WriteEnv.healthy
          ⟨Store.empty, NewOrderCache⟩ [1] :=
  ((handler_idempotent (sampleUnmarshal sampleOrder otherOrder) keyedSchema WriteEnv.healthy
    WriteEnv.healthy ⟨Store.empty, NewOrderCache⟩ [1]).2 (Or.inl (by decide))).2.1 rfl

/-- Remark on the schema: without a key on `deliveries` and `payments` a second delivery
of the same message is saved again; the cache is the same, table `orders` is the same,
and the other three tables hold the rows of the order twice. -/
theorem redelivery_without_keys_repeats_rows :
    (handler (sampleUnmarshal sampleOrder otherOrder) plainSchema WriteEnv.healthy
        (handler (sampleUnmarshal sampleOrder otherOrder) plainSchema WriteEnv.healthy
          ⟨Store.empty, NewOrderCache⟩ [1]) [1]).db
      = { orders := [orderRow sampleOrder]
          deliveries := [deliveryRow sampleOrder, deliveryRow sampleOrder]
          payments := [paymentRow sampleOrder, paymentRow sampleOrder]
          items := sampleOrder.Items.map (itemRow sampleOrder.OrderUID) ++
                   sampleOrder.Items.map (itemRow sampleOrder.OrderUID) } := by
  decide

/-! ## `GetAllOrders` -/

theorem scanOrder_blocks (r : OrderRow) (o : Order) (h : scanOrder r = some o) :
    o.Delivery = Delivery.zero ∧ o.Payment = Payment.zero ∧ o.Items = [] := by
  unfold scanOrder at h
  repeat' split at h
  all_goals cases h
  exact ⟨rfl, rfl, rfl⟩

theorem scanItems_eq (env : ReadEnv) (orderUID : String) (rows : List ItemRow) (i : Nat)
    (items : List Item) (hnext : ∀ j, env.itemsNext orderUID j = none) :
    scanItems env orderUID rows i items = items ++ rows.filterMap scanItem := by
  induction rows generalizing i items with
  | nil => simp [scanItems]
  | cons r rest ih =>
    simp only [scanItems, hnext i]
    cases hr : scanItem r with
    | none => simp [ih, List.filterMap_cons, hr]
    | some item => simp [ih, List.filterMap_cons, hr]

theorem scanItems_none_readable (env : ReadEnv) (orderUID : String) (rows : List ItemRow)
    (i : Nat) (items : List Item) (h : ∀ r ∈ rows, scanItem r = none) :
    scanItems env orderUID rows i items = items := by
  induction rows generalizing i with
  | nil => rfl
  | cons r rest ih =>
    simp only [scanItems]
    cases env.itemsNext orderUID i with
    | some e => rfl
    | none =>
      simp only [h r (by simp)]
      exact ih (i + 1) (fun r' hr' => h r' (by simp [hr']))

theorem find?_filter_self {α : Type} (p : α → Bool) (l : List α) :
    (l.filter p).find? p = l.find? p := by
  induction l with
  | nil => rfl
  | cons a rest ih =>
    by_cases h : p a = true
    · simp [List.filter_cons, h]
    · simp [List.filter_cons, List.find?_cons, h, ih]

theorem loadDelivery_no_row (env : ReadEnv) (db : Store) (orderUID : String) (d : Delivery)
    (h : hasDelivery db.deliveries orderUID = false) :
    loadDelivery env db orderUID d = d := by
  unfold loadDelivery
  split
  · rfl
  · have hfind : db.deliveries.find? (fun r => decide (r.order_uid = some orderUID)) = none := by
      rw [List.find?_eq_none]
      intro r hr hkey
      have : hasDelivery db.deliveries orderUID = true := by
        simp only [hasDelivery, List.any_eq_true]
        exact ⟨r, hr, hkey⟩
      rw [h] at this
      cases this
    rw [hfind]

theorem loadPayment_no_row (env : ReadEnv) (db : Store) (orderUID : String) (p : Payment)
    (h : hasPayment db.payments orderUID = false) :
    loadPayment env db orderUID p = p := by
  unfold loadPayment
  split
  · rfl
  · have hfind : db.payments.find? (fun r => decide (r.order_uid = some orderUID)) = none := by
      rw [List.find?_eq_none]
      intro r hr hkey
      have : hasPayment db.payments orderUID = true := by
        simp only [hasPayment, List.any_eq_true]
        exact ⟨r, hr, hkey⟩
      rw [h] at this
      cases this
    rw [hfind]

theorem loadItems_no_readable_row (env : ReadEnv) (db : Store) (orderUID : String)
    (items : List Item)
    (h : ∀ r ∈ db.items, r.order_uid = some orderUID → scanItem r = none) :
    loadItems env db orderUID items = items := by
  unfold loadItems
  split
  · rfl
  · apply scanItems_none_readable
    intro r hr
    simp only [List.mem_filter, decide_eq_true_eq] at hr
    exact h r hr.1 hr.2

/-- What `GetAllOrders` loads for one order depends only on the rows of that order. -/
theorem loadOrder_congr (env : ReadEnv) (db db' : Store) (root : Order)
    (hd : db'.deliveries.filter (fun r => decide (r.order_uid = some root.OrderUID))
        = db.deliveries.filter (fun r => decide (r.order_uid = some root.OrderUID)))
    (hp : db'.payments.filter (fun r => decide (r.order_uid = some root.OrderUID))
        = db.payments.filter (fun r => decide (r.order_uid = some root.OrderUID)))
    (hi : db'.items.filter (fun r => decide (r.order_uid = some root.OrderUID))
        = db.items.filter (fun r => decide (r.order_uid = some root.OrderUID))) :
    loadOrder env db' root = loadOrder env db root := by
  have h1 : loadDelivery env db' root.OrderUID root.Delivery
      = loadDelivery env db root.OrderUID root.Delivery := by
    unfold loadDelivery
    rw [← find?_filter_self _ db'.deliveries, ← find?_filter_self _ db.deliveries, hd]
  have h2 : loadPayment env db' root.OrderUID root.Payment
      = loadPayment env db root.OrderUID root.Payment := by
    unfold loadPayment
    rw [← find?_filter_self _ db'.payments, ← find?_filter_self _ db.payments, hp]
  have h3 : loadItems env db' root.OrderUID root.Items
      = loadItems env db root.OrderUID root.Items := by
    unfold loadItems
    rw [hi]
  simp only [loadOrder, h1, h2, h3]

/-- C10 as stated fails: the root query succeeds, both root rows are readable, the fetch
of the second root row fails, and `GetAllOrders` returns no error and one order only. -/
theorem GetAllOrders_stops_at_fetch_error :
    (ReadEnv.rootFetchFailsAt 1 "driver: bad connection").ordersQuery = none ∧
    (storeOf [sampleOrder, otherOrder]).orders.filterMap scanOrder
      = [rootOf sampleOrder, rootOf otherOrder] ∧
    GetAllOrders (ReadEnv.rootFetchFailsAt 1 "driver: bad connection")
        (storeOf [sampleOrder, otherOrder])
      = Except.ok [sampleOrder] :=
  ⟨rfl, rfl, rfl⟩

/-- C10, amended: when the root query succeeds, `GetAllOrders` returns no error and an
initial segment of the list that holds one order per root row that scans, in table order,
with the root attributes of that row; when no fetch error ends the loop over the root
rows early, it returns that whole list.  An order without delivery row has the zero
`Delivery`, one without payment row the zero `Payment`, one without readable item row no
item; and what is loaded for an order depends only on the rows of its own identifier, so
the other orders are not affected. -/
theorem GetAllOrders_best_effort (env : ReadEnv) (db : Store) (hq : env.ordersQuery = none) :
    (∃ orders, GetAllOrders env db = Except.ok orders ∧
      orders <+: (db.orders.filterMap scanOrder).map (loadOrder env db)) ∧
    ((∀ i, env.ordersNext i = none) →
      GetAllOrders env db
        = Except.ok ((db.orders.filterMap scanOrder).map (loadOrder env db))) ∧
    (∀ root ∈ db.orders.filterMap scanOrder,
      { loadOrder env db root with
          Delivery := Delivery.zero, Payment := Payment.zero, Items := [] } = root ∧
      (hasDelivery db.deliveries root.OrderUID = false →
        (loadOrder env db root).Delivery = Delivery.zero) ∧
      (hasPayment db.payments root.OrderUID = false →
        (loadOrder env db root).Payment = Payment.zero) ∧
      ((∀ r ∈ db.items, r.order_uid = some root.OrderUID → scanItem r = none) →
        (loadOrder env db root).Items = [])) ∧
    (∀ (db' : Store) (root : Order),
      db'.deliveries.filter (fun r => decide (r.order_uid = some root.OrderUID))
        = db.deliveries.filter (fun r => decide (r.order_uid = some root.OrderUID)) →
      db'.payments.filter (fun r => decide (r.order_uid = some root.OrderUID))
        = db.payments.filter (fun r => decide (r.order_uid = some root.OrderUID)) →
      db'.items.filter (fun r => decide (r.order_uid = some root.OrderUID))
        = db.items.filter (fun r => decide (r.order_uid = some root.OrderUID)) →
      loadOrder env db' root = loadOrder env db root) := by
  refine ⟨?_, ?_, ?_, fun db' root hd hp hi => loadOrder_congr env db db' root hd hp hi⟩
  · unfold GetAllOrders
    rw [hq]
    simp only
    obtain ⟨l, hl, hpre⟩ := getAllOrdersLoop_initial env db db.orders 0 []
    exact ⟨l, by simpa using hl, hpre⟩
  · intro hnext
    unfold GetAllOrders
    rw [hq]
    simp only
    rw [getAllOrdersLoop_eq env db db.orders 0 [] hnext]
    simp
  · intro root hroot
    simp only [List.mem_filterMap] at hroot
    obtain ⟨r, _, hscan⟩ := hroot
    obtain ⟨hd0, hp0, hi0⟩ := scanOrder_blocks r root hscan
    refine ⟨?_, ?_, ?_, ?_⟩
    · cases root
      simp only at hd0 hp0 hi0
      subst hd0 hp0 hi0
      rfl
    · intro h
      simp only [loadOrder]
      rw [loadDelivery_no_row env db _ _ h, hd0]
    · intro h
      simp only [loadOrder]
      rw [loadPayment_no_row env db _ _ h, hp0]
    · intro h
      simp only [loadOrder]
      rw [loadItems_no_readable_row env db _ _ h, hi0]

/-- C10, amended, on `damagedStore` with no fetch error: the complete order is loaded in
full, the unreadable root row is skipped, and the order without delivery, payment and
readable item is still returned. -/
theorem GetAllOrders_best_effort_witness :
    GetAllOrders ReadEnv.healthy damagedStore = Except.ok [sampleOrder, rootOf otherOrder] :=
  (GetAllOrders_best_effort ReadEnv.healthy damagedStore rfl).2.1 (fun _ => rfl)

/-! ## The cache restore after a sequence of saves -/

theorem itemRowsOf_append (xs ys : List Order) :
    itemRowsOf (xs ++ ys) = itemRowsOf xs ++ itemRowsOf ys := by
  induction xs with
  | nil => rfl
  | cons o rest ih => simp [itemRowsOf, ih]

theorem hasOrder_storeOf (orders : List Order) (orderUID : String)
    (h : orderUID ∉ orders.map (fun o => o.OrderUID)) :
    hasOrder (storeOf orders).orders orderUID = false := by
  induction orders with
  | nil => rfl
  | cons o rest ih =>
    simp only [List.map_cons, List.mem_cons, not_or] at h
    have ih' := ih h.2
    simp only [storeOf, hasOrder, List.map_cons, List.any_cons] at ih' ⊢
    rw [ih']
    have : ¬ (orderRow o).order_uid = some orderUID := by
      simp only [orderRow, Option.some.injEq]
      exact fun hc => h.1 hc.symm
    simp [this]

theorem committedStore_storeOf (pre : List Order) (o : Order)
    (h : o.OrderUID ∉ pre.map (fun o => o.OrderUID)) :
    committedStore (storeOf pre) o = storeOf (pre ++ [o]) := by
  have hno : hasOrder (pre.map orderRow) o.OrderUID = false := hasOrder_storeOf pre o.OrderUID h
  simp [committedStore, hno, storeOf, itemRowsOf_append, itemRowsOf]

theorem saveAll_storeOf (sch : Schema) (jobs : List (WriteEnv × Order)) (pre : List Order)
    (db : Store)
    (hnodup : ((pre ++ jobs.map Prod.snd).map (fun o => o.OrderUID)).Nodup)
    (h : saveAll sch (storeOf pre) jobs = some db) :
    db = storeOf (pre ++ jobs.map Prod.snd) := by
  induction jobs generalizing pre with
  | nil =>
    simp only [saveAll] at h
    cases h
    simp
  | cons job rest ih =>
    obtain ⟨env, o⟩ := job
    simp only [saveAll] at h
    have hfresh : o.OrderUID ∉ pre.map (fun o => o.OrderUID) := by
      simp only [List.map_cons, List.map_append, List.nodup_append, List.nodup_cons] at hnodup
      intro hmem
      exact hnodup.2.2 hmem (by simp)
    rcases SaveOrder_cases sch env (storeOf pre) o with ⟨e, hs⟩ | hs
    · rw [hs] at h
      cases h
    · rw [hs] at h
      simp only at h
      rw [committedStore_storeOf pre o hfresh] at h
      have hnodup' : (((pre ++ [o]) ++ rest.map Prod.snd).map (fun o => o.OrderUID)).Nodup := by
        simpa using hnodup
      have := ih (pre ++ [o]) hnodup' h
      simpa using this

theorem find?_deliveryRow (orders : List Order) (o : Order)
    (hnodup : (orders.map (fun o => o.OrderUID)).Nodup) (ho : o ∈ orders) :
    (orders.map deliveryRow).find? (fun r => decide (r.order_uid = some o.OrderUID))
      = some (deliveryRow o) := by
  induction orders with
  | nil => cases ho
  | cons a rest ih =>
    simp only [List.map_cons, List.nodup_cons] at hnodup
    simp only [List.map_cons, List.find?_cons]
    rcases List.mem_cons.1 ho with rfl | hrest
    · simp [deliveryRow]
    · have hne : ¬ (deliveryRow a).order_uid = some o.OrderUID := by
        simp only [deliveryRow, Option.some.injEq]
        intro hc
        exact hnodup.1 (List.mem_map.2 ⟨o, hrest, hc.symm⟩)
      simp only [hne, decide_False]
      exact ih hnodup.2 hrest

theorem find?_paymentRow (orders : List Order) (o : Order)
    (hnodup : (orders.map (fun o => o.OrderUID)).Nodup) (ho : o ∈ orders) :
    (orders.map paymentRow).find? (fun r => decide (r.order_uid = some o.OrderUID))
      = some (paymentRow o) := by
  induction orders with
  | nil => cases ho
  | cons a rest ih =>
    simp only [List.map_cons, List.nodup_cons] at hnodup
    simp only [List.map_cons, List.find?_cons]
    rcases List.mem_cons.1 ho with rfl | hrest
    · simp [paymentRow]
    · have hne : ¬ (paymentRow a).order_uid = some o.OrderUID := by
        simp only [paymentRow, Option.some.injEq]
        intro hc
        exact hnodup.1 (List.mem_map.2 ⟨o, hrest, hc.symm⟩)
      simp only [hne, decide_False]
      exact ih hnodup.2 hrest

theorem filter_itemRows_same (orderUID : String) (items : List Item) :
    (items.map (itemRow orderUID)).filter (fun r => decide (r.order_uid = some orderUID))
      = items.map (itemRow orderUID) := by
  rw [List.filter_eq_self]
  intro r hr
  obtain ⟨item, _, rfl⟩ := List.mem_map.1 hr
  simp [itemRow]

theorem filter_itemRows_other (orderUID other : String) (items : List Item)
    (h : other ≠ orderUID) :
    (items.map (itemRow other)).filter (fun r => decide (r.order_uid = some orderUID))
      = [] := by
  rw [List.filter_eq_nil_iff]
  intro r hr
  obtain ⟨item, _, rfl⟩ := List.mem_map.1 hr
  simp [itemRow, h]

theorem filter_itemRowsOf_absent (orders : List Order) (orderUID : String)
    (h : orderUID ∉ orders.map (fun o => o.OrderUID)) :
    (itemRowsOf orders).filter (fun r => decide (r.order_uid = some orderUID)) = [] := by
  induction orders with
  | nil => rfl
  | cons a rest ih =>
    simp only [List.map_cons, List.mem_cons, not_or] at h
    simp only [itemRowsOf, List.filter_append]
    rw [ih h.2, filter_itemRows_other orderUID a.OrderUID a.Items (fun hc => h.1 hc.symm)]
    rfl

theorem filter_itemRowsOf (orders : List Order) (o : Order)
    (hnodup : (orders.map (fun o => o.OrderUID)).Nodup) (ho : o ∈ orders) :
    (itemRowsOf orders).filter (fun r => decide (r.order_uid = some o.OrderUID))
      = o.Items.map (itemRow o.OrderUID) := by
  induction orders with
  | nil => cases ho
  | cons a rest ih =>
    simp only [List.map_cons, List.nodup_cons] at hnodup
    simp only [itemRowsOf, List.filter_append]
    rcases List.mem_cons.1 ho with rfl | hrest
    · rw [filter_itemRows_same, filter_itemRowsOf_absent rest o.OrderUID hnodup.1]
      simp
    · have hne : a.OrderUID ≠ o.OrderUID := by
        intro hc
        exact hnodup.1 (List.mem_map.2 ⟨o, hrest, hc.symm⟩)
      rw [filter_itemRows_other o.OrderUID a.OrderUID a.Items hne, ih hnodup.2 hrest]
      rfl

theorem filterMap_scanItem_itemRow (orderUID : String) (items : List Item) :
    (items.map (itemRow orderUID)).filterMap scanItem = items := by
  induction items with
  | nil => rfl
  | cons item rest ih =>
    simp only [List.map_cons, List.filterMap_cons]
    have : scanItem (itemRow orderUID item) = some item := rfl
    rw [this, ih]

theorem loadOrder_storeOf (env : ReadEnv) (orders : List Order) (o : Order)
    (hsub : ∀ id, env.deliveryQuery id = none ∧ env.paymentQuery id = none ∧
      env.itemsQuery id = none)
    (hitems : ∀ id i, env.itemsNext id i = none)
    (hnodup : (orders.map (fun o => o.OrderUID)).Nodup) (ho : o ∈ orders) :
    loadOrder env (storeOf orders) (rootOf o) = o := by
  have hd : loadDelivery env (storeOf orders) o.OrderUID Delivery.zero = o.Delivery := by
    unfold loadDelivery
    rw [(hsub o.OrderUID).1]
    simp only [storeOf]
    rw [find?_deliveryRow orders o hnodup ho]
    rfl
  have hp : loadPayment env (storeOf orders) o.OrderUID Payment.zero = o.Payment := by
    unfold loadPayment
    rw [(hsub o.OrderUID).2.1]
    simp only [storeOf]
    rw [find?_paymentRow orders o hnodup ho]
    rfl
  have hi : loadItems env (storeOf orders) o.OrderUID [] = o.Items := by
    unfold loadItems
    rw [(hsub o.OrderUID).2.2]
    simp only [storeOf]
    rw [filter_itemRowsOf orders o hnodup ho, scanItems_eq _ _ _ _ _ (hitems o.OrderUID),
      filterMap_scanItem_itemRow]
    rfl
  simp only [loadOrder, rootOf, hd, hp, hi]

theorem map_eq_self_of_forall {α : Type} (f : α → α) (l : List α) (h : ∀ a ∈ l, f a = a) :
    l.map f = l := by
  induction l with
  | nil => rfl
  | cons a rest ih =>
    simp only [List.map_cons]
    rw [h a (by simp), ih (fun b hb => h b (by simp [hb]))]

theorem filterMap_scanOrder_orderRow (orders : List Order) :
    (orders.map orderRow).filterMap scanOrder = orders.map rootOf := by
  induction orders with
  | nil => rfl
  | cons o rest ih =>
    simp only [List.map_cons, List.filterMap_cons]
    have : scanOrder (orderRow o) = some (rootOf o) := rfl
    rw [this, ih]

theorem GetAllOrders_storeOf (env : ReadEnv) (orders : List Order)
    (hq : env.ordersQuery = none)
    (hsub : ∀ id, env.deliveryQuery id = none ∧ env.paymentQuery id = none ∧
      env.itemsQuery id = none)
    (hnext : ∀ i, env.ordersNext i = none)
    (hitems : ∀ id i, env.itemsNext id i = none)
    (hnodup : (orders.map (fun o => o.OrderUID)).Nodup) :
    GetAllOrders env (storeOf orders) = Except.ok orders := by
  unfold GetAllOrders
  rw [hq]
  simp only
  rw [getAllOrdersLoop_eq env _ _ 0 [] hnext]
  have hrows : (storeOf orders).orders = orders.map orderRow := rfl
  rw [hrows, filterMap_scanOrder_orderRow, List.map_map]
  simp only [List.nil_append]
  rw [map_eq_self_of_forall (loadOrder env (storeOf orders) ∘ rootOf) orders
    (fun o ho => loadOrder_storeOf env orders o hsub hitems hnodup ho)]

theorem map_snd_bindings (orders : List Order) :
    (orders.map (fun o => (o.OrderUID, o))).map Prod.snd = orders := by
  induction orders with
  | nil => rfl
  | cons o rest ih => simp only [List.map_cons, ih]

theorem mapAssign_fresh (m : List (String × Order)) (k : String) (v : Order)
    (h : k ∉ m.map Prod.fst) : mapAssign m k v = m ++ [(k, v)] := by
  induction m with
  | nil => rfl
  | cons p rest ih =>
    obtain ⟨k', v'⟩ := p
    simp only [List.map_cons, List.mem_cons, not_or] at h
    simp only [mapAssign]
    rw [if_neg (fun hc => h.1 hc.symm), ih h.2]
    rfl

theorem loadFromDB_fresh (c : OrderCache) (orders : List Order)
    (hnodup : (c.orders.map Prod.fst ++ orders.map (fun o => o.OrderUID)).Nodup) :
    (c.LoadFromDB orders).orders = c.orders ++ orders.map (fun o => (o.OrderUID, o)) := by
  induction orders generalizing c with
  | nil => simp [OrderCache.LoadFromDB]
  | cons o rest ih =>
    simp only [OrderCache.LoadFromDB]
    have hfresh : o.OrderUID ∉ c.orders.map Prod.fst := by
      simp only [List.map_cons, List.nodup_append, List.nodup_cons] at hnodup
      intro hmem
      exact hnodup.2.2 hmem (by simp)
    have hassign := mapAssign_fresh c.orders o.OrderUID o hfresh
    have hnodup' : ((c.orders ++ [(o.OrderUID, o)]).map Prod.fst
        ++ rest.map (fun o => o.OrderUID)).Nodup := by
      simpa using hnodup
    have := ih ⟨mapAssign c.orders o.OrderUID o⟩ (by rw [hassign]; exact hnodup')
    rw [this, hassign]
    simp

/-- C8: the cache restore reproduces what was saved.  When orders with pairwise distinct
identifiers are saved into the empty store, each by a call of `SaveOrder` that returns
`nil`, and the queries and row fetches of `GetAllOrders` succeed, then `GetAllOrders` followed by
`LoadFromDB` into a new cache gives a cache whose `GetAll` is, up to the sequence, the
list of the saved orders, each with its delivery, payment and items. -/
theorem restore_round_trip (sch : Schema) (renv : ReadEnv) (jobs : List (WriteEnv × Order))
    (db : Store)
    (hdistinct : (jobs.map (fun job => job.2.OrderUID)).Nodup)
    (hsaved : saveAll sch Store.empty jobs = some db)
    (hq : renv.ordersQuery = none)
    (hsub : ∀ id, renv.deliveryQuery id = none ∧ renv.paymentQuery id = none ∧
      renv.itemsQuery id = none)
    (hnext : ∀ i, renv.ordersNext i = none)
    (hitems : ∀ id i, renv.itemsNext id i = none) :
    GetAllOrders renv db = Except.ok (jobs.map Prod.snd) ∧
    ((restore renv db).cache.GetAll).Perm (jobs.map Prod.snd) ∧
    ∀ o ∈ jobs.map Prod.snd, (restore renv db).cache.Get o.OrderUID = (o, true) := by
  have hnodup : ((jobs.map Prod.snd).map (fun o => o.OrderUID)).Nodup := by
    simpa [List.map_map] using hdistinct
  have hdb : db = storeOf (jobs.map Prod.snd) := by
    have := saveAll_storeOf sch jobs [] db (by simpa using hnodup) hsaved
    simpa using this
  have hload := GetAllOrders_storeOf renv (jobs.map Prod.snd) hq hsub hnext hitems hnodup
  rw [← hdb] at hload
  have hcache : (restore renv db).cache.orders
      = (jobs.map Prod.snd).map (fun o => (o.OrderUID, o)) := by
    unfold restore
    rw [hload]
    simp only
    rw [loadFromDB_fresh NewOrderCache _ (by simpa [NewOrderCache] using hnodup)]
    simp [NewOrderCache]
  refine ⟨hload, ?_, ?_⟩
  · unfold OrderCache.GetAll
    rw [hcache, map_snd_bindings]
  · intro o ho
    unfold OrderCache.Get
    rw [hcache]
    generalize jobs.map Prod.snd = orders at hnodup ho
    induction orders with
    | nil => cases ho
    | cons a rest ih =>
      simp only [List.map_cons, List.nodup_cons] at hnodup
      simp only [List.map_cons, mapIndex]
      rcases List.mem_cons.1 ho with rfl | hrest
      · simp
      · have hne : a.OrderUID ≠ o.OrderUID := by
          intro hc
          exact hnodup.1 (List.mem_map.2 ⟨o, hrest, hc.symm⟩)
        simp only [hne, if_false]
        exact ih hnodup.2 hrest

/-- C8 on two orders saved into the empty store under `keyedSchema`. -/
theorem restore_round_trip_witness :
    ((restore ReadEnv.healthy
        (committedStore (committedStore Store.empty sampleOrder) otherOrder)).cache.GetAll).Perm
      [sampleOrder, otherOrder] :=
  (restore_round_trip keyedSchema ReadEnv.healthy
    [(WriteEnv.healthy, sampleOrder), (WriteEnv.healthy, otherOrder)]
    (committedStore (committedStore Store.empty sampleOrder) otherOrder)
    (by decide) (by decide) rfl (fun _ => ⟨rfl, rfl, rfl⟩) (fun _ => rfl)
    (fun _ _ => rfl)).2.1

end WbOrders
